import Mathlib

set_option maxRecDepth 40000

/-!
Shallow embedding of the audio note-scheduling and synthesis engine of the
lego_build repository (files src/unnamed/part_000 and src/unnamed/part_001).

Times and numeric parameters are modelled over the rationals; the JavaScript
number line with its non-finite values (NaN, plus and minus infinity), needed
at the synthesis boundary, is modelled by the type JSNum further below.
-/

/-! ## Kalimba data model (part_001) -/

/-- One note event of a song: beat-relative offset t and a MIDI pitch.
Mirrors the Song.notes element type of part_001. -/
structure Note where
  t : ℚ
  midi : ℤ
deriving DecidableEq, Repr

/-- Instrument preset tag, mirroring the kalimba or piano union of part_001. -/
inductive Instrument where
  | kalimba
  | piano
deriving DecidableEq, Repr

/-- A song: speed scalar (seconds per unit of t), optional instrument tag
(the scheduler defaults a missing tag to kalimba), and the note table.
The name string of the source is dropped; it has no behavioural role. -/
structure Song where
  speed : ℚ
  instrument : Option Instrument
  notes : List Note
deriving DecidableEq, Repr

/-- MIDI pitches of the 24 generated kalimba keys: the whiteKeysMidi table of
generateRealisticKeys in part_001. The later sort of KALIMBA_KEYS by x does
not change which midi values exist, and midi values are distinct, so a lookup
by midi succeeds exactly when the midi value is in this table. -/
def whiteKeysMidi : List ℤ :=
  [55, 57, 59, 60, 62, 64, 65, 67, 69, 71, 72, 74, 76, 77, 79, 81, 83, 84,
   86, 88, 89, 91, 93, 95]

/-- Whether KALIMBA_KEYS.find by this midi value succeeds. -/
def kalimbaHasKey (midi : ℤ) : Bool :=
  whiteKeysMidi.contains midi

/-- One hand-off from the scheduler to AudioEngine.play: the midi pitch of the
matched key (its frequency is a fixed function of midi) and the absolute clock
time passed as the when argument. The remaining play arguments at the call
site are the constants 0.8 and the song instrument tag. -/
structure Handoff where
  midi : ℤ
  whenTime : ℚ
deriving DecidableEq, Repr

/-- The scheduleWindow constant of the scheduler effect in part_001. -/
def scheduleWindow : ℚ := mkRat 3 2

/-- Absolute target time of a note: startTimeRef.current + note.t * song.speed. -/
def noteTime (speed startTime : ℚ) (n : Note) : ℚ :=
  startTime + n.t * speed

/-- The body of the scheduler while-loop for one note: the key lookup by midi
and, when it succeeds, the audio.play hand-off carrying noteTime. -/
def handoffOpt (speed startTime : ℚ) (n : Note) : Option Handoff :=
  if kalimbaHasKey n.midi then some ⟨n.midi, noteTime speed startTime n⟩ else none

/-- The scheduler while-loop of part_001, scanning the note list from the
current scan position: while the next note's target time is strictly below
currentTime + scheduleWindow, hand it off (if its key exists) and advance the
index; otherwise break. Returns how many notes were consumed and the hand-offs
made, in order. -/
def scanLoop (speed startTime c : ℚ) : List Note → ℕ × List Handoff
  | [] => (0, [])
  | n :: rest =>
    if noteTime speed startTime n < c + scheduleWindow then
      ((scanLoop speed startTime c rest).1 + 1,
        (handoffOpt speed startTime n).toList ++ (scanLoop speed startTime c rest).2)
    else (0, [])

/-- One invocation of the scheduler closure on the note list, given the scan
pointer nextNoteIndexRef.current = idx and the observed audio clock c.
Returns the new scan pointer and the hand-offs of this poll. -/
def schedulePoll (notes : List Note) (speed startTime : ℚ) (idx : ℕ) (c : ℚ) :
    ℕ × List Handoff :=
  ((scanLoop speed startTime c (notes.drop idx)).1 + idx,
    (scanLoop speed startTime c (notes.drop idx)).2)

/-- A sequence of scheduler polls at the given observed clock values, threading
the scan pointer, collecting all hand-offs in order. -/
def runPolls (notes : List Note) (speed startTime : ℚ) (idx : ℕ) :
    List ℚ → ℕ × List Handoff
  | [] => (idx, [])
  | c :: cs =>
    ((runPolls notes speed startTime (schedulePoll notes speed startTime idx c).1 cs).1,
      (schedulePoll notes speed startTime idx c).2 ++
        (runPolls notes speed startTime (schedulePoll notes speed startTime idx c).1 cs).2)

/-- The page-level playback state touched by the scheduler: isPlaying,
songIndex and the scan pointer nextNoteIndexRef. -/
structure KalimbaState where
  isPlaying : Bool
  songIndex : Option ℕ
  nextNoteIndex : ℕ
deriving DecidableEq, Repr

/-- The full scheduler closure of part_001, including the leading audio.ctx
guard (ctx = none models a missing audio context: the poll returns at once)
and the trailing termination check: when the clock has passed the last note's
target time by more than 2.0 and the scan pointer has reached the end of the
note list, isPlaying is cleared and songIndex reset. An empty note table makes
the source read an undefined last element, whose NaN end time makes the
comparison false, so no reset happens there. -/
def schedulerTick (song : Song) (startTime : ℚ) (s : KalimbaState) :
    Option ℚ → KalimbaState × List Handoff
  | none => (s, [])
  | some c =>
    (let idx' := (schedulePoll song.notes song.speed startTime s.nextNoteIndex c).1
     let reset :=
       match song.notes.getLast? with
       | some lastNote =>
           decide (noteTime song.speed startTime lastNote + 2 < c) &&
             decide (song.notes.length ≤ idx')
       | none => false
     if reset then
       { s with isPlaying := false, songIndex := none, nextNoteIndex := idx' }
     else
       { s with nextNoteIndex := idx' },
     (schedulePoll song.notes song.speed startTime s.nextNoteIndex c).2)

/-- The startTimeRef value recorded when playback starts while the audio clock
reads t0: audio.ctx.currentTime + 0.1. -/
def sessionStartTime (t0 : ℚ) : ℚ := t0 + mkRat 1 10
/-- Transcribed from the part_001 SONGS entry "卡農 (Canon) - 完整繁華版": speed 0.4, instrument absent, defaulting to kalimba, 141 notes. Decimal literals appear as explicit fractions: mkRat 3 2 is 1.5, mkRat 2 5 is 0.4, and so on. -/
def canonSong : Song where
  speed := (mkRat 2 5)
  instrument := none
  notes := [
    Note.mk 0 60, Note.mk 0 64, Note.mk 0 67, Note.mk 0 72,
    Note.mk 1 67, Note.mk (mkRat 3 2) 72, Note.mk 2 55, Note.mk 2 59,
    Note.mk 2 62, Note.mk 2 71, Note.mk 3 62, Note.mk (mkRat 7 2) 59,
    Note.mk 4 57, Note.mk 4 60, Note.mk 4 64, Note.mk 4 69,
    Note.mk 5 64, Note.mk (mkRat 11 2) 60, Note.mk 6 64, Note.mk 6 67,
    Note.mk 6 71, Note.mk 6 79, Note.mk 7 71, Note.mk (mkRat 15 2) 67,
    Note.mk 8 65, Note.mk 8 69, Note.mk 8 72, Note.mk 8 81,
    Note.mk 9 72, Note.mk (mkRat 19 2) 69, Note.mk 10 60, Note.mk 10 64,
    Note.mk 10 67, Note.mk 10 76, Note.mk 11 67, Note.mk (mkRat 23 2) 64,
    Note.mk 12 65, Note.mk 12 69, Note.mk 12 72, Note.mk 12 81,
    Note.mk 13 72, Note.mk (mkRat 27 2) 69, Note.mk 14 55, Note.mk 14 59,
    Note.mk 14 62, Note.mk 14 71, Note.mk 15 74, Note.mk (mkRat 31 2) 79,
    Note.mk 16 60, Note.mk 16 76, Note.mk (mkRat 33 2) 72, Note.mk 17 76,
    Note.mk (mkRat 35 2) 79, Note.mk 18 55, Note.mk 18 74, Note.mk (mkRat 37 2) 71,
    Note.mk 19 74, Note.mk (mkRat 39 2) 71, Note.mk 20 57, Note.mk 20 72,
    Note.mk (mkRat 41 2) 69, Note.mk 21 72, Note.mk (mkRat 43 2) 76, Note.mk 22 64,
    Note.mk 22 71, Note.mk (mkRat 45 2) 67, Note.mk 23 71, Note.mk (mkRat 47 2) 72,
    Note.mk 24 65, Note.mk 24 69, Note.mk (mkRat 49 2) 65, Note.mk 25 69,
    Note.mk (mkRat 51 2) 72, Note.mk 26 60, Note.mk 26 67, Note.mk (mkRat 53 2) 64,
    Note.mk 27 67, Note.mk (mkRat 55 2) 76, Note.mk 28 65, Note.mk 28 69,
    Note.mk (mkRat 57 2) 72, Note.mk 29 81, Note.mk (mkRat 59 2) 84, Note.mk 30 55,
    Note.mk 30 71, Note.mk (mkRat 61 2) 74, Note.mk 31 79, Note.mk (mkRat 63 2) 83,
    Note.mk 32 60, Note.mk 32 72, Note.mk 32 84, Note.mk (mkRat 65 2) 79,
    Note.mk 33 76, Note.mk (mkRat 67 2) 72, Note.mk 34 55, Note.mk 34 71,
    Note.mk 34 83, Note.mk (mkRat 69 2) 79, Note.mk 35 74, Note.mk (mkRat 71 2) 71,
    Note.mk 36 57, Note.mk 36 69, Note.mk 36 81, Note.mk (mkRat 73 2) 76,
    Note.mk 37 72, Note.mk (mkRat 75 2) 69, Note.mk 38 64, Note.mk 38 67,
    Note.mk 38 79, Note.mk (mkRat 77 2) 76, Note.mk 39 71, Note.mk (mkRat 79 2) 67,
    Note.mk 40 65, Note.mk 40 69, Note.mk 40 81, Note.mk (mkRat 81 2) 76,
    Note.mk 41 72, Note.mk (mkRat 83 2) 69, Note.mk 42 60, Note.mk 42 67,
    Note.mk 42 79, Note.mk (mkRat 85 2) 76, Note.mk 43 72, Note.mk (mkRat 87 2) 67,
    Note.mk 44 65, Note.mk 44 81, Note.mk (mkRat 89 2) 83, Note.mk 45 84,
    Note.mk (mkRat 91 2) 86, Note.mk 46 55, Note.mk 46 83, Note.mk (mkRat 93 2) 81,
    Note.mk 47 79, Note.mk (mkRat 95 2) 74, Note.mk 48 60, Note.mk 48 64,
    Note.mk 48 67, Note.mk 48 72, Note.mk 48 84, Note.mk 49 72,
    Note.mk 50 60]

/-- Transcribed from the part_001 SONGS entry "霍爾的移動城堡 (Merry-Go-Round)": speed 0.35, instrument absent, defaulting to kalimba, 29 notes. Decimal literals appear as explicit fractions: mkRat 3 2 is 1.5, mkRat 2 5 is 0.4, and so on. -/
def howlSong : Song where
  speed := (mkRat 7 20)
  instrument := none
  notes := [
    Note.mk 0 57, Note.mk 1 69, Note.mk 1 72, Note.mk 1 76,
    Note.mk 2 69, Note.mk 2 72, Note.mk 2 76, Note.mk 3 65,
    Note.mk 4 69, Note.mk 4 72, Note.mk 4 77, Note.mk 5 69,
    Note.mk 5 72, Note.mk 5 77, Note.mk 6 74, Note.mk 7 76,
    Note.mk 8 77, Note.mk 9 62, Note.mk 9 81, Note.mk 10 65,
    Note.mk 10 69, Note.mk 11 65, Note.mk 11 69, Note.mk 12 64,
    Note.mk 12 79, Note.mk 13 67, Note.mk 13 71, Note.mk 14 67,
    Note.mk 14 71]

/-- Transcribed from the part_001 SONGS entry "小星星變奏曲 (Twinkle Chord Ver.)": speed 0.6, instrument absent, defaulting to kalimba, 50 notes. Decimal literals appear as explicit fractions: mkRat 3 2 is 1.5, mkRat 2 5 is 0.4, and so on. -/
def twinkleSong : Song where
  speed := (mkRat 3 5)
  instrument := none
  notes := [
    Note.mk 0 60, Note.mk 0 64, Note.mk 0 67, Note.mk 0 72,
    Note.mk 1 60, Note.mk 1 64, Note.mk 1 67, Note.mk 1 72,
    Note.mk 2 65, Note.mk 2 69, Note.mk 2 72, Note.mk 2 79,
    Note.mk 3 65, Note.mk 3 69, Note.mk 3 72, Note.mk 3 79,
    Note.mk 4 69, Note.mk 4 72, Note.mk 4 76, Note.mk 4 81,
    Note.mk 5 69, Note.mk 5 72, Note.mk 5 76, Note.mk 5 81,
    Note.mk 6 55, Note.mk 6 59, Note.mk 6 62, Note.mk 6 79,
    Note.mk 8 65, Note.mk 8 69, Note.mk 8 77, Note.mk 9 65,
    Note.mk 9 69, Note.mk 9 77, Note.mk 10 64, Note.mk 10 67,
    Note.mk 10 76, Note.mk 11 64, Note.mk 11 67, Note.mk 11 76,
    Note.mk 12 62, Note.mk 12 67, Note.mk 12 74, Note.mk 13 62,
    Note.mk 13 67, Note.mk 13 74, Note.mk 14 60, Note.mk 14 64,
    Note.mk 14 67, Note.mk 14 72]

/-- Transcribed from the part_001 SONGS entry "雨夜花 (Rainy Night Flower)": speed 0.7, instrument piano, 65 notes. Decimal literals appear as explicit fractions: mkRat 3 2 is 1.5, mkRat 2 5 is 0.4, and so on. -/
def rainSong : Song where
  speed := (mkRat 7 10)
  instrument := some Instrument.piano
  notes := [
    Note.mk 0 57, Note.mk (mkRat 1 2) 64, Note.mk 1 69, Note.mk (mkRat 3 2) 72,
    Note.mk 2 64, Note.mk 2 57, Note.mk (mkRat 5 2) 67, Note.mk 3 69,
    Note.mk 3 60, Note.mk 4 67, Note.mk (mkRat 9 2) 64, Note.mk (mkRat 9 2) 57,
    Note.mk 5 62, Note.mk (mkRat 11 2) 64, Note.mk (mkRat 13 2) 64, Note.mk (mkRat 13 2) 57,
    Note.mk 7 67, Note.mk (mkRat 15 2) 69, Note.mk (mkRat 15 2) 60, Note.mk (mkRat 17 2) 67,
    Note.mk 9 64, Note.mk 9 57, Note.mk (mkRat 19 2) 67, Note.mk 10 72,
    Note.mk 10 65, Note.mk (mkRat 21 2) 69, Note.mk 11 67, Note.mk 11 60,
    Note.mk 12 72, Note.mk 12 65, Note.mk (mkRat 25 2) 72, Note.mk 13 69,
    Note.mk (mkRat 27 2) 67, Note.mk (mkRat 27 2) 60, Note.mk 14 69, Note.mk (mkRat 29 2) 67,
    Note.mk 15 64, Note.mk 15 57, Note.mk 16 62, Note.mk 16 55,
    Note.mk (mkRat 33 2) 64, Note.mk 17 67, Note.mk 17 60, Note.mk 18 69,
    Note.mk 18 65, Note.mk (mkRat 37 2) 72, Note.mk 19 69, Note.mk 20 67,
    Note.mk 20 60, Note.mk (mkRat 41 2) 64, Note.mk 21 62, Note.mk 21 55,
    Note.mk 22 60, Note.mk 22 57, Note.mk (mkRat 45 2) 62, Note.mk 23 64,
    Note.mk 24 67, Note.mk 24 60, Note.mk (mkRat 49 2) 69, Note.mk 25 72,
    Note.mk 25 57, Note.mk 26 69, Note.mk (mkRat 53 2) 64, Note.mk 27 60,
    Note.mk 28 57]

/-- The SONGS table of part_001, in order: song index 0 is the Canon entry. -/
def SONGS : List Song := [canonSong, howlSong, twinkleSong, rainSong]

/-- Non-decreasing t order of a note list, as a directly computable check. -/
def sortedByT : List Note → Bool
  | [] => true
  | [_] => true
  | a :: b :: rest => decide (a.t ≤ b.t) && sortedByT (b :: rest)

/-! ## JavaScript number model for the synthesis boundary -/

/-- A JavaScript number as far as the synthesis boundary observes it: a finite
rational, NaN, or a signed infinity (inf true is positive infinity). -/
inductive JSNum where
  | num : ℚ → JSNum
  | nan : JSNum
  | inf : Bool → JSNum
deriving DecidableEq, Repr

/-- Number.isFinite. -/
def JSNum.isFinite : JSNum → Bool
  | JSNum.num _ => true
  | _ => false

/-- JavaScript addition: NaN absorbs; opposite infinities give NaN. -/
def jadd : JSNum → JSNum → JSNum
  | JSNum.nan, _ => JSNum.nan
  | _, JSNum.nan => JSNum.nan
  | JSNum.inf a, JSNum.inf b => if a = b then JSNum.inf a else JSNum.nan
  | JSNum.inf a, JSNum.num _ => JSNum.inf a
  | JSNum.num _, JSNum.inf b => JSNum.inf b
  | JSNum.num p, JSNum.num q => JSNum.num (p + q)

/-- JavaScript multiplication: NaN absorbs; infinity times zero is NaN,
otherwise signs multiply. -/
def jmul : JSNum → JSNum → JSNum
  | JSNum.nan, _ => JSNum.nan
  | _, JSNum.nan => JSNum.nan
  | JSNum.inf a, JSNum.inf b => JSNum.inf (a = b)
  | JSNum.inf a, JSNum.num q =>
      if q = 0 then JSNum.nan else JSNum.inf (a = decide (0 < q))
  | JSNum.num p, JSNum.inf b =>
      if p = 0 then JSNum.nan else JSNum.inf (b = decide (0 < p))
  | JSNum.num p, JSNum.num q => JSNum.num (p * q)

/-- JavaScript division, as far as the engine exercises it: a nonzero finite
number divided by zero gives a signed infinity (there is no negative zero in
this model), zero by zero gives NaN. -/
def jdiv : JSNum → JSNum → JSNum
  | JSNum.nan, _ => JSNum.nan
  | _, JSNum.nan => JSNum.nan
  | JSNum.inf _, JSNum.inf _ => JSNum.nan
  | JSNum.inf a, JSNum.num q => JSNum.inf (a = decide (0 ≤ q))
  | JSNum.num _, JSNum.inf _ => JSNum.num 0
  | JSNum.num p, JSNum.num q =>
      if q = 0 then
        if p = 0 then JSNum.nan else JSNum.inf (decide (0 < p))
      else JSNum.num (p / q)

/-- Math.max on two arguments: NaN absorbs, otherwise the larger value. -/
def jmax : JSNum → JSNum → JSNum
  | JSNum.nan, _ => JSNum.nan
  | _, JSNum.nan => JSNum.nan
  | JSNum.inf true, _ => JSNum.inf true
  | _, JSNum.inf true => JSNum.inf true
  | JSNum.inf false, b => b
  | a, JSNum.inf false => a
  | JSNum.num p, JSNum.num q => JSNum.num (max p q)

/-! ## AudioEngine model (part_001) -/

/-- Observable state of the shared AudioContext. -/
inductive CtxRunState where
  | running
  | suspended
deriving DecidableEq, Repr

/-- The AudioEngine singleton state: the lazily created context (none before
creation; masterGain and reverbNode exist exactly when ctx does, so they are
not tracked separately) and a count of AudioContext constructions, used to
express that at most one context is ever created. -/
structure EngineState where
  ctx : Option CtxRunState
  created : ℕ
deriving DecidableEq, Repr

/-- Environment facts an engine call observes: whether the platform provides
an AudioContext constructor, the state a newly constructed context starts in
(platform autoplay policy), and the current reading of the audio clock. -/
structure EngineEnv where
  audioContextAvailable : Bool
  newCtxState : CtxRunState
  now : ℚ
deriving DecidableEq, Repr

/-- AudioEngine.ensureInit of part_001: return at once if a running context
exists; otherwise create the context (and its master gain and reverb graph)
when the platform offers a constructor, then resume a suspended context.
Resume is asynchronous in the source; its eventual effect, reaching the
running state, is modelled as immediate. -/
def AudioEngine.ensureInit (env : EngineEnv) (s : EngineState) : EngineState :=
  match s.ctx with
  | some CtxRunState.running => s
  | some CtxRunState.suspended => { s with ctx := some CtxRunState.running }
  | none =>
    if env.audioContextAvailable then
      match env.newCtxState with
      | CtxRunState.running =>
          { ctx := some CtxRunState.running, created := s.created + 1 }
      | CtxRunState.suspended =>
          { ctx := some CtxRunState.running, created := s.created + 1 }
    else s

/-- One observable interaction with the Web Audio graph, with the numeric
arguments the source passes. WebIDL restricts these arguments to finite
doubles and floats: a non-finite argument makes the call throw instead of
taking effect, which opOk below captures. -/
inductive AudioOp where
  | createOscillator
  | createGain
  | createBiquadFilter
  | setParamValue (v : JSNum)
  | setValueAtTime (v t : JSNum)
  | linearRampToValueAtTime (v t : JSNum)
  | exponentialRampToValueAtTime (v t : JSNum)
  | connect
  | start (t : JSNum)
  | stopAt (t : JSNum)
deriving DecidableEq, Repr

/-- Whether a graph call satisfies the WebIDL finiteness contract of its
numeric arguments (node creation and connect take none). -/
def opOk : AudioOp → Bool
  | AudioOp.setParamValue v => v.isFinite
  | AudioOp.setValueAtTime v t => v.isFinite && t.isFinite
  | AudioOp.linearRampToValueAtTime v t => v.isFinite && t.isFinite
  | AudioOp.exponentialRampToValueAtTime v t => v.isFinite && t.isFinite
  | AudioOp.start t => t.isFinite
  | AudioOp.stopAt t => t.isFinite
  | _ => true

/-- A trace raises no exception exactly when every call is within contract. -/
def opsOk (l : List AudioOp) : Bool := l.all opOk

/-- AudioEngine.playKalimba of part_001, as the trace of graph calls it makes
in source order: FM carrier and modulator, modulation envelope, amplitude
envelope with frequency-dependent decay time max(1.0, 500/freq), and the
attack thump. -/
def AudioEngine.playKalimba (freq posFactor t : JSNum) : List AudioOp :=
  let decayTime := jmax (JSNum.num 1) (jdiv (JSNum.num 500) freq)
  [AudioOp.createOscillator,
   AudioOp.setParamValue freq,
   AudioOp.createOscillator,
   AudioOp.setParamValue (jmul freq (JSNum.num (mkRat 12 5))),
   AudioOp.createGain,
   AudioOp.setValueAtTime (jmul (JSNum.num 500) posFactor) t,
   AudioOp.exponentialRampToValueAtTime (JSNum.num (mkRat 1 100)) (jadd t (JSNum.num (mkRat 1 2))),
   AudioOp.connect, AudioOp.connect,
   AudioOp.createGain,
   AudioOp.setValueAtTime (JSNum.num 0) t,
   AudioOp.linearRampToValueAtTime (jmul (JSNum.num (mkRat 3 5)) posFactor) (jadd t (JSNum.num (mkRat 1 200))),
   AudioOp.exponentialRampToValueAtTime (JSNum.num (mkRat 1 1000)) (jadd t decayTime),
   AudioOp.connect, AudioOp.connect,
   AudioOp.start t,
   AudioOp.start t,
   AudioOp.stopAt (jadd (jadd t decayTime) (JSNum.num (mkRat 1 10))),
   AudioOp.stopAt (jadd (jadd t decayTime) (JSNum.num (mkRat 1 10))),
   AudioOp.createOscillator,
   AudioOp.setValueAtTime (JSNum.num 100) t,
   AudioOp.exponentialRampToValueAtTime (JSNum.num 20) (jadd t (JSNum.num (mkRat 1 20))),
   AudioOp.createGain,
   AudioOp.setValueAtTime (JSNum.num (mkRat 3 10)) t,
   AudioOp.exponentialRampToValueAtTime (JSNum.num (mkRat 1 1000)) (jadd t (JSNum.num (mkRat 1 20))),
   AudioOp.connect, AudioOp.connect,
   AudioOp.start t,
   AudioOp.stopAt (jadd t (JSNum.num (mkRat 3 50)))]

/-- AudioEngine.playPiano of part_001, as the trace of graph calls it makes
in source order: two detuned triangle oscillators through a sweeping lowpass
filter and an amplitude envelope. -/
def AudioEngine.playPiano (freq velocity t : JSNum) : List AudioOp :=
  [AudioOp.createOscillator,
   AudioOp.createOscillator,
   AudioOp.setParamValue freq,
   AudioOp.setParamValue (jmul freq (JSNum.num (mkRat 1001 1000))),
   AudioOp.createBiquadFilter,
   AudioOp.setValueAtTime (jmul freq (JSNum.num 8)) t,
   AudioOp.exponentialRampToValueAtTime freq (jadd t (JSNum.num 1)),
   AudioOp.createGain,
   AudioOp.setValueAtTime (JSNum.num 0) t,
   AudioOp.linearRampToValueAtTime (jmul (JSNum.num (mkRat 1 2)) velocity) (jadd t (JSNum.num (mkRat 1 50))),
   AudioOp.exponentialRampToValueAtTime (JSNum.num (mkRat 1 1000)) (jadd t (JSNum.num (mkRat 5 2))),
   AudioOp.connect, AudioOp.connect, AudioOp.connect, AudioOp.connect,
   AudioOp.start t,
   AudioOp.start t,
   AudioOp.stopAt (jadd t (JSNum.num 3)),
   AudioOp.stopAt (jadd t (JSNum.num 3))]

/-- AudioEngine.play of part_001: reject non-finite freq or positionFactor
before touching anything, ensure initialization, no-op without a context
(masterGain exists exactly when ctx does), clamp the requested start time to
the current clock reading with Math.max, then dispatch on the instrument. -/
def AudioEngine.play (env : EngineEnv) (s : EngineState) (freq posFactor : JSNum)
    (instrument : Instrument) (whenArg : JSNum) : EngineState × List AudioOp :=
  if freq.isFinite && posFactor.isFinite then
    match (AudioEngine.ensureInit env s).ctx with
    | none => (AudioEngine.ensureInit env s, [])
    | some _ =>
      (AudioEngine.ensureInit env s,
        match instrument with
        | Instrument.piano =>
            AudioEngine.playPiano freq posFactor (jmax (JSNum.num env.now) whenArg)
        | Instrument.kalimba =>
            AudioEngine.playKalimba freq posFactor (jmax (JSNum.num env.now) whenArg))
  else (s, [])

/-- Times at which a trace starts oscillators. -/
def startTimes (l : List AudioOp) : List JSNum :=
  l.filterMap fun op =>
    match op with
    | AudioOp.start t => some t
    | _ => none

/-! ## ViolinAudio model (part_000) -/

/-- The four violin strings, in the creation order of ViolinAudio.init. -/
inductive StringName where
  | G
  | D
  | A
  | E
deriving DecidableEq, Repr

/-- Open-string frequencies passed to the ViolinString constructors
(196.00, 293.66, 440.00, 659.25). -/
def stringBaseFreq : StringName → ℚ
  | StringName.G => 196
  | StringName.D => mkRat 29366 100
  | StringName.A => 440
  | StringName.E => mkRat 65925 100

/-- ViolinString state: which graph nodes currently exist (osc, gain and
filter are assigned together by play and cleared together by stop) and the
base frequency fixed at construction. -/
structure ViolinString where
  osc : Option Unit
  gain : Option Unit
  filter : Option Unit
  baseFreq : ℚ
deriving DecidableEq, Repr

/-- One observable interaction of a violin string voice with the audio graph.
The target frequency baseFreq * 2 ^ fingerPos is transcendental, so the
frequency-carrying actions record the pair of arguments instead of the
product. -/
inductive VAction where
  | setFrequencyTarget (base fpos t tc : ℚ)
  | setGainTarget (v t tc : ℚ)
  | setFilterTarget (v t tc : ℚ)
  | createOsc
  | setFrequencyValue (base fpos : ℚ)
  | createFilter (q cutoff : ℚ)
  | createGainNode
  | connectNode
  | startOsc (t : ℚ)
  | deferredOscStop
  | deferredGainDisconnect
deriving DecidableEq, Repr

/-- ViolinString.play of part_000: if osc, gain and filter all exist, retarget
the sounding voice (legato) with setTargetAtTime calls; otherwise build a new
sawtooth-filter-gain chain, start it, and ramp the gain toward velocity. -/
def ViolinString.play (s : ViolinString) (velocity fingerPos now : ℚ) :
    ViolinString × List VAction :=
  if s.osc.isSome && s.gain.isSome && s.filter.isSome then
    (s, [VAction.setFrequencyTarget s.baseFreq fingerPos now (mkRat 1 20),
         VAction.setGainTarget (min 1 (velocity * mkRat 3 2)) now (mkRat 1 50),
         VAction.setFilterTarget (800 + velocity * 4000) now (mkRat 1 50)])
  else
    ({ s with osc := some (), gain := some (), filter := some () },
     [VAction.createOsc,
      VAction.setFrequencyValue s.baseFreq fingerPos,
      VAction.createFilter 2 1000,
      VAction.createGainNode,
      VAction.connectNode, VAction.connectNode, VAction.connectNode,
      VAction.startOsc now,
      VAction.setGainTarget velocity now (mkRat 1 20)])

/-- ViolinString.stop of part_000: only when a gain node exists, ramp the gain
to zero (release), schedule the deferred oscillator stop and gain disconnect,
and null out osc, gain and filter; otherwise do nothing at all. -/
def ViolinString.stop (s : ViolinString) (now : ℚ) : ViolinString × List VAction :=
  match s.gain with
  | some _ =>
    ({ s with osc := none, gain := none, filter := none },
     [VAction.setGainTarget 0 now (mkRat 1 10),
      VAction.deferredOscStop,
      VAction.deferredGainDisconnect])
  | none => (s, [])

/-- The ViolinAudio singleton. The strings dictionary is populated exactly
when the context is created in init, so both live under one Option. -/
structure ViolinAudio where
  ctx : Option (StringName → ViolinString)

/-- Object.keys(this.strings) order: the insertion order G, D, A, E. -/
def stringOrder : List StringName :=
  [StringName.G, StringName.D, StringName.A, StringName.E]

/-- ViolinAudio.init of part_000: a no-op when the context exists; otherwise,
when the platform offers an AudioContext constructor, create the context and
the four fresh strings. -/
def ViolinAudio.init (available : Bool) (a : ViolinAudio) : ViolinAudio :=
  match a.ctx with
  | some _ => a
  | none =>
    if available then
      { ctx := some fun name =>
          { osc := none, gain := none, filter := none,
            baseFreq := stringBaseFreq name } }
    else a

/-- ViolinAudio.bow of part_000: init, return if there is still no context,
stop every string other than stringName (in Object.keys order), then play the
requested string. The resume call on a suspended context has no effect on
string state and is omitted. -/
def ViolinAudio.bow (available : Bool) (a : ViolinAudio) (stringName : StringName)
    (velocity fingerPos now : ℚ) : ViolinAudio × List VAction :=
  match (ViolinAudio.init available a).ctx with
  | none => (ViolinAudio.init available a, [])
  | some strings =>
    ({ ctx := some fun k =>
        if k = stringName then
          (ViolinString.play (strings stringName) velocity fingerPos now).1
        else
          (ViolinString.stop (strings k) now).1 },
      (stringOrder.map fun k =>
        if k = stringName then [] else (ViolinString.stop (strings k) now).2).flatten ++
        (ViolinString.play (strings stringName) velocity fingerPos now).2)

/-- The gain node of one string voice, seen through the optional context. -/
def ViolinAudio.stringGain (a : ViolinAudio) (k : StringName) : Option Unit :=
  match a.ctx with
  | none => none
  | some f => (f k).gain

/-- How many of the four string voices currently hold a gain node, that is,
are sounding or releasing. -/
def ViolinAudio.activeCount (a : ViolinAudio) : ℕ :=
  match a.ctx with
  | none => 0
  | some f => stringOrder.countP fun k => (f k).gain.isSome

/-! ## Scheduler lemmas -/

theorem scanLoop_count_le (speed startTime c : ℚ) (l : List Note) :
    (scanLoop speed startTime c l).1 ≤ l.length := by
  induction l with
  | nil => simp [scanLoop]
  | cons n rest ih =>
    by_cases h : noteTime speed startTime n < c + scheduleWindow
    · simpa [scanLoop, h] using ih
    · simp [scanLoop, h]

theorem scanLoop_handoffs (speed startTime c : ℚ) (l : List Note) :
    (scanLoop speed startTime c l).2 =
      (l.take (scanLoop speed startTime c l).1).filterMap (handoffOpt speed startTime) := by
  induction l with
  | nil => simp [scanLoop]
  | cons n rest ih =>
    by_cases h : noteTime speed startTime n < c + scheduleWindow
    · simp only [scanLoop, if_pos h, List.take_succ_cons, List.filterMap_cons]
      cases hk : handoffOpt speed startTime n <;> simp [hk, ih]
    · simp [scanLoop, h]

theorem scanLoop_all (speed startTime c : ℚ) (l : List Note)
    (h : ∀ n ∈ l, noteTime speed startTime n < c + scheduleWindow) :
    scanLoop speed startTime c l = (l.length, l.filterMap (handoffOpt speed startTime)) := by
  induction l with
  | nil => simp [scanLoop]
  | cons n rest ih =>
    have hn := h n (List.mem_cons_self n rest)
    have ih' := ih fun m hm => h m (List.mem_cons_of_mem n hm)
    cases hk : handoffOpt speed startTime n <;>
      simp [scanLoop, hn, ih', List.filterMap_cons, hk]

theorem scanLoop_count_le_of_not (speed startTime c : ℚ) (l : List Note) (j : ℕ)
    (hj : j < l.length)
    (hnot : ¬ noteTime speed startTime (l.get ⟨j, hj⟩) < c + scheduleWindow) :
    (scanLoop speed startTime c l).1 ≤ j := by
  induction l generalizing j with
  | nil => simp at hj
  | cons n rest ih =>
    cases j with
    | zero =>
      simp only [List.get] at hnot
      simp [scanLoop, hnot]
    | succ j' =>
      by_cases h : noteTime speed startTime n < c + scheduleWindow
      · have := ih j' (by simpa using Nat.lt_of_succ_lt_succ hj) (by simpa using hnot)
        simp only [scanLoop, if_pos h]
        omega
      · simp [scanLoop, h]

theorem scanLoop_count_gt_of_all (speed startTime c : ℚ) (l : List Note) (j : ℕ)
    (hj : j < l.length)
    (hall : ∀ i (hi : i < l.length), i ≤ j →
      noteTime speed startTime (l.get ⟨i, hi⟩) < c + scheduleWindow) :
    j < (scanLoop speed startTime c l).1 := by
  induction l generalizing j with
  | nil => simp at hj
  | cons n rest ih =>
    have h0 : noteTime speed startTime n < c + scheduleWindow := by
      have := hall 0 (by simp) (Nat.zero_le j)
      simpa using this
    cases j with
    | zero => simp [scanLoop, h0]
    | succ j' =>
      have hj' : j' < rest.length := by simpa using Nat.lt_of_succ_lt_succ hj
      have := ih j' hj' (fun i hi hij => by
        have := hall (i + 1) (by simpa using Nat.succ_lt_succ hi) (Nat.succ_le_succ hij)
        simpa using this)
      simp only [scanLoop, if_pos h0]
      omega

theorem schedulePoll_mono (notes : List Note) (speed startTime : ℚ) (idx : ℕ) (c : ℚ) :
    idx ≤ (schedulePoll notes speed startTime idx c).1 := by
  simp [schedulePoll]

theorem runPolls_spec (notes : List Note) (speed startTime : ℚ) (cs : List ℚ) (idx : ℕ)
    (hidx : idx ≤ notes.length) :
    ∃ k, idx + k ≤ notes.length ∧
      runPolls notes speed startTime idx cs =
        (idx + k, ((notes.drop idx).take k).filterMap (handoffOpt speed startTime)) := by
  induction cs generalizing idx with
  | nil => exact ⟨0, by simpa using hidx, by simp [runPolls]⟩
  | cons c cs ih =>
    have hm := scanLoop_count_le speed startTime c (notes.drop idx)
    rw [List.length_drop] at hm
    have hidx' : (schedulePoll notes speed startTime idx c).1 ≤ notes.length := by
      simp only [schedulePoll]
      omega
    obtain ⟨k', hk'le, hk'⟩ := ih (schedulePoll notes speed startTime idx c).1 hidx'
    refine ⟨(scanLoop speed startTime c (notes.drop idx)).1 + k', ?_, ?_⟩
    · simp only [schedulePoll] at hk'le
      omega
    · simp only [runPolls, hk', Prod.mk.injEq]
      refine ⟨by simp only [schedulePoll]; omega, ?_⟩
      simp only [schedulePoll]
      rw [scanLoop_handoffs speed startTime c (notes.drop idx)]
      rw [Nat.add_comm (scanLoop speed startTime c (notes.drop idx)).1 idx, ← List.drop_drop,
        ← List.filterMap_append, ← List.take_add]

theorem runPolls_drain (notes : List Note) (speed startTime : ℚ) (cs : List ℚ) (idx : ℕ)
    (hidx : idx ≤ notes.length)
    (hc : ∃ c ∈ cs, ∀ n ∈ notes, noteTime speed startTime n < c + scheduleWindow) :
    (runPolls notes speed startTime idx cs).1 = notes.length := by
  induction cs generalizing idx with
  | nil => simp at hc
  | cons c cs ih =>
    have hm := scanLoop_count_le speed startTime c (notes.drop idx)
    rw [List.length_drop] at hm
    have hidx' : (schedulePoll notes speed startTime idx c).1 ≤ notes.length := by
      simp only [schedulePoll]; omega
    obtain ⟨cw, hcw, hdrain⟩ := hc
    rcases List.mem_cons.mp hcw with hcw | hcw
    · rw [hcw] at hdrain
      have hall : ∀ n ∈ notes.drop idx, noteTime speed startTime n < c + scheduleWindow :=
        fun n hn => hdrain n (List.mem_of_mem_drop hn)
      have hfull : (schedulePoll notes speed startTime idx c).1 = notes.length := by
        simp only [schedulePoll, scanLoop_all speed startTime c (notes.drop idx) hall,
          List.length_drop]
        omega
      obtain ⟨k, hkle, hk⟩ :=
        runPolls_spec notes speed startTime cs (schedulePoll notes speed startTime idx c).1 hidx'
      rw [hfull] at hk hkle
      have h1 : (runPolls notes speed startTime notes.length cs).1 = notes.length + k := by
        rw [hk]
      simp only [runPolls, hfull, h1]
      omega
    · have := ih (schedulePoll notes speed startTime idx c).1 hidx' ⟨cw, hcw, hdrain⟩
      simpa [runPolls] using this

theorem filterMap_handoff_of_keys (speed startTime : ℚ) (l : List Note)
    (hkeys : ∀ n ∈ l, kalimbaHasKey n.midi) :
    l.filterMap (handoffOpt speed startTime) =
      l.map fun n => Handoff.mk n.midi (noteTime speed startTime n) := by
  induction l with
  | nil => simp
  | cons n rest ih =>
    have hn := hkeys n (List.mem_cons_self n rest)
    have ih' := ih fun m hm => hkeys m (List.mem_cons_of_mem n hm)
    simp [List.filterMap_cons, handoffOpt, hn, ih']

theorem sortedByT_pairwise : ∀ l : List Note, sortedByT l →
    List.Pairwise (fun a b : Note => a.t ≤ b.t) l
  | [] => by simp
  | [a] => by simp
  | a :: b :: rest => by
    intro h
    simp only [sortedByT, Bool.and_eq_true, decide_eq_true_eq] at h
    have htail := sortedByT_pairwise (b :: rest) h.2
    refine List.pairwise_cons.mpr ⟨?_, htail⟩
    intro x hx
    rcases List.mem_cons.mp hx with hx | hx
    · exact hx ▸ h.1
    · have hb := (List.pairwise_cons.mp htail).1 x hx
      exact le_trans h.1 hb
/-- Well-formedness of the four built-in songs: note tables sorted by t,
every note's midi value has a kalimba key, and speeds are positive. -/
theorem SONGS_wellFormed :
    ∀ s ∈ SONGS, sortedByT s.notes ∧ (∀ n ∈ s.notes, kalimbaHasKey n.midi) ∧ 0 < s.speed := by
  decide

/-- The note at a consumed position with a key appears in the poll's
hand-off list, carrying its own formula time. -/
theorem handoff_mem_schedulePoll (notes : List Note) (speed startTime : ℚ) (idx : ℕ)
    (c : ℚ) (j : ℕ) (hj : j < notes.length) (h1 : idx ≤ j)
    (h2 : j < (schedulePoll notes speed startTime idx c).1)
    (hkey : kalimbaHasKey (notes.get ⟨j, hj⟩).midi) :
    Handoff.mk (notes.get ⟨j, hj⟩).midi (noteTime speed startTime (notes.get ⟨j, hj⟩)) ∈
      (schedulePoll notes speed startTime idx c).2 := by
  have hcount : j - idx < (scanLoop speed startTime c (notes.drop idx)).1 := by
    simp only [schedulePoll] at h2
    omega
  have hdj : idx + (j - idx) < notes.length := by omega
  have hdl : j - idx < (notes.drop idx).length := by
    rw [List.length_drop]
    omega
  have e1 : notes.get ⟨j, hj⟩ = (notes.drop idx).get ⟨j - idx, hdl⟩ := by
    have hie : j = idx + (j - idx) := by omega
    have hfin : (⟨j, hj⟩ : Fin notes.length) = ⟨idx + (j - idx), hdj⟩ := Fin.ext hie
    rw [hfin, List.get_drop notes hdj]
  simp only [schedulePoll]
  rw [scanLoop_handoffs]
  refine List.mem_filterMap.mpr ⟨notes.get ⟨j, hj⟩, ?_, ?_⟩
  · rw [e1, List.get_take (notes.drop idx) hdl hcount]
    exact List.get_mem _ _ _
  · simp only [List.get_eq_getElem] at hkey
    simp [handoffOpt, hkey]

/-- C1: both directions of the timing contract. Every hand-off a scheduler
poll makes passes to AudioEngine.play, as the absolute clock time argument,
exactly startTime + note.t * song.speed for some note of the song, where
startTime is the session's recorded start clock time (startTimeRef.current);
and conversely the note at any position the poll consumes (when its key
exists) is handed off with its own formula time. The observed poll clock c
never enters the formula, so the passed time is the same no matter when the
poll actually ran. -/
theorem spec_c1_handoff_time (notes : List Note) (speed startTime : ℚ) (idx : ℕ) (c : ℚ)
    (h : Handoff) (j : ℕ) (hj : j < notes.length)
    (hmem : h ∈ (schedulePoll notes speed startTime idx c).2)
    (h1 : idx ≤ j) (h2 : j < (schedulePoll notes speed startTime idx c).1)
    (hkey : kalimbaHasKey (notes.get ⟨j, hj⟩).midi) :
    (∃ n ∈ notes, h.midi = n.midi ∧ h.whenTime = startTime + n.t * speed) ∧
    Handoff.mk (notes.get ⟨j, hj⟩).midi
        (startTime + (notes.get ⟨j, hj⟩).t * speed) ∈
      (schedulePoll notes speed startTime idx c).2 := by
  constructor
  · simp only [schedulePoll] at hmem
    rw [scanLoop_handoffs] at hmem
    obtain ⟨n, hn, hsome⟩ := List.mem_filterMap.mp hmem
    refine ⟨n, List.mem_of_mem_drop (List.mem_of_mem_take hn), ?_⟩
    by_cases hk : kalimbaHasKey n.midi
    · simp only [handoffOpt, if_pos hk, Option.some.injEq] at hsome
      subst hsome
      exact ⟨rfl, rfl⟩
    · simp [handoffOpt, hk] at hsome
  · exact handoff_mem_schedulePoll notes speed startTime idx c j hj h1 h2 hkey

/-- Witness for C1 at a concrete input: a one-note song polled at clock 0
hands the note off, and the hand-off time is the formula value. -/
theorem spec_c1_handoff_time_witness :
    (Handoff.mk 60 0 ∈ (schedulePoll [Note.mk 0 60] 1 0 0 0).2 ∧
      0 < (schedulePoll [Note.mk 0 60] 1 0 0 0).1) ∧
    (Handoff.mk 60 0).whenTime = 0 + (Note.mk 0 60).t * 1 ∧
    Handoff.mk (Note.mk 0 60).midi (0 + (Note.mk 0 60).t * 1) ∈
      (schedulePoll [Note.mk 0 60] 1 0 0 0).2 := by
  have hmem : Handoff.mk 60 0 ∈ (schedulePoll [Note.mk 0 60] 1 0 0 0).2 := by
    norm_num [schedulePoll, scanLoop, noteTime, scheduleWindow, handoffOpt,
      kalimbaHasKey, whiteKeysMidi, Rat.mkRat_eq_div]
  have hcount : 0 < (schedulePoll [Note.mk 0 60] 1 0 0 0).1 := by
    norm_num [schedulePoll, scanLoop, noteTime, scheduleWindow, Rat.mkRat_eq_div]
  obtain ⟨⟨n, hn, _, hw⟩, hm2⟩ := spec_c1_handoff_time [Note.mk 0 60] 1 0 0 0
    (Handoff.mk 60 0) 0 (by decide) hmem (Nat.le_refl 0) hcount (by decide)
  rcases List.mem_singleton.mp hn with rfl
  exact ⟨⟨hmem, hcount⟩, hw, hm2⟩

/-- C2: within one playback session over any of the built-in songs, the scan
pointer never decreases across a poll, and over any poll sequence that
eventually looks past the last note (clock cd), the concatenated hand-offs
are exactly the note table in order, each note once, with non-decreasing
hand-off times. Repolling over the same clock interval is allowed: the poll
clock list is arbitrary. -/
theorem spec_c2_monotone_exactly_once (song : Song) (startTime : ℚ) (polls : List ℚ)
    (idx : ℕ) (c cd : ℚ) (hsong : song ∈ SONGS) (hcd : cd ∈ polls)
    (hdrain : ∀ n ∈ song.notes, noteTime song.speed startTime n < cd + scheduleWindow) :
    idx ≤ (schedulePoll song.notes song.speed startTime idx c).1 ∧
    (runPolls song.notes song.speed startTime 0 polls).2 =
      song.notes.map (fun n => Handoff.mk n.midi (noteTime song.speed startTime n)) ∧
    List.Pairwise (fun h1 h2 : Handoff => h1.whenTime ≤ h2.whenTime)
      (runPolls song.notes song.speed startTime 0 polls).2 := by
  obtain ⟨hsort, hkeys, hsp⟩ := SONGS_wellFormed song hsong
  have htotal : (runPolls song.notes song.speed startTime 0 polls).2 =
      song.notes.map (fun n => Handoff.mk n.midi (noteTime song.speed startTime n)) := by
    obtain ⟨k, hkle, hrun⟩ :=
      runPolls_spec song.notes song.speed startTime polls 0 (Nat.zero_le _)
    have hfin := runPolls_drain song.notes song.speed startTime polls 0 (Nat.zero_le _)
      ⟨cd, hcd, hdrain⟩
    rw [hrun] at hfin
    simp only [Nat.zero_add] at hfin hrun
    rw [hrun, hfin, List.drop_zero, List.take_length]
    exact filterMap_handoff_of_keys song.speed startTime song.notes hkeys
  refine ⟨schedulePoll_mono song.notes song.speed startTime idx c, htotal, ?_⟩
  rw [htotal]
  refine List.Pairwise.map _ ?_ (sortedByT_pairwise song.notes hsort)
  intro a b hab
  show noteTime song.speed startTime a ≤ noteTime song.speed startTime b
  have := mul_le_mul_of_nonneg_right hab (le_of_lt hsp)
  simpa [noteTime] using this

/-- Witness for C2: the Merry-Go-Round song, startTime 0, a single poll at
clock 10000, which looks past the last note. -/
theorem spec_c2_monotone_exactly_once_witness :
    (∀ n ∈ howlSong.notes, noteTime howlSong.speed 0 n < 10000 + scheduleWindow) ∧
    (0 ≤ (schedulePoll howlSong.notes howlSong.speed 0 0 5).1 ∧
      (runPolls howlSong.notes howlSong.speed 0 0 [(10000 : ℚ)]).2 =
        howlSong.notes.map (fun n => Handoff.mk n.midi (noteTime howlSong.speed 0 n)) ∧
      List.Pairwise (fun h1 h2 : Handoff => h1.whenTime ≤ h2.whenTime)
        (runPolls howlSong.notes howlSong.speed 0 0 [(10000 : ℚ)]).2) := by
  have hb : ∀ n ∈ howlSong.notes, n.t ≤ 14 := by decide
  have hsp : howlSong.speed = mkRat 7 20 := rfl
  have hdrain : ∀ n ∈ howlSong.notes, noteTime howlSong.speed 0 n < 10000 + scheduleWindow := by
    intro n hn
    have ht := hb n hn
    have hmul : n.t * howlSong.speed ≤ 14 * howlSong.speed := by
      refine mul_le_mul_of_nonneg_right ht ?_
      rw [hsp, Rat.mkRat_eq_div]
      norm_num
    rw [hsp, Rat.mkRat_eq_div] at hmul
    simp only [noteTime, scheduleWindow, hsp, Rat.mkRat_eq_div]
    linarith
  refine ⟨hdrain, spec_c2_monotone_exactly_once howlSong 0 [(10000 : ℚ)] 0 5 10000
    (by decide) (by simp) hdrain⟩

/-- C3 as written fails at the window boundary: the scheduler condition is
the strict noteTime < currentTime + scheduleWindow, so a poll whose clock
reads exactly T - 1.5 does not hand the note off. Here a one-note song with
target time T = 1.5 is polled at clock 0 = T - 1.5: the claimed hand-off does
not happen; the scan pointer stays 0 and no hand-off is produced. -/
theorem spec_c3_counterexample :
    (0 : ℚ) = noteTime 1 0 (Note.mk (mkRat 3 2) 60) - scheduleWindow ∧
    schedulePoll [Note.mk (mkRat 3 2) 60] 1 0 0 0 = (0, []) := by
  constructor
  · norm_num [noteTime, scheduleWindow, Rat.mkRat_eq_div]
  · have hnot : ¬ noteTime 1 0 (Note.mk (mkRat 3 2) 60) < 0 + scheduleWindow := by
      norm_num [noteTime, scheduleWindow, Rat.mkRat_eq_div]
    simp only [schedulePoll, List.drop_zero, scanLoop, if_neg hnot]

/-- C3 amended: for a song sorted by t with non-negative speed, a note with
target time T (at list position j at or past the scan pointer) is handed off
by any poll whose clock satisfies the strict T < currentTime + 1.5, is not
yet handed off by a poll with currentTime + 1.5 <= T, and a poll clock at
most one 0.2 poll period past the strict threshold T - 1.5 is below T + 1.5,
one window past T. -/
theorem spec_c3_amended (notes : List Note) (speed startTime : ℚ) (idx j : ℕ) (c : ℚ)
    (hj : j < notes.length) (hsort : sortedByT notes) (hsp : 0 ≤ speed) (hidx : idx ≤ j) :
    (noteTime speed startTime (notes.get ⟨j, hj⟩) < c + scheduleWindow →
      j < (schedulePoll notes speed startTime idx c).1) ∧
    (c + scheduleWindow ≤ noteTime speed startTime (notes.get ⟨j, hj⟩) →
      (schedulePoll notes speed startTime idx c).1 ≤ j) ∧
    (c ≤ noteTime speed startTime (notes.get ⟨j, hj⟩) - scheduleWindow + mkRat 1 5 →
      c < noteTime speed startTime (notes.get ⟨j, hj⟩) + scheduleWindow) := by
  have hmono := List.pairwise_iff_get.mp (sortedByT_pairwise notes hsort)
  have hget : ∀ (i : ℕ) (hi : i < (notes.drop idx).length),
      (notes.drop idx).get ⟨i, hi⟩ = notes.get ⟨idx + i, by
        rw [List.length_drop] at hi; omega⟩ := by
    intro i hi
    exact (List.get_drop notes _).symm
  refine ⟨?_, ?_, ?_⟩
  · intro hp
    have hj' : j - idx < (notes.drop idx).length := by
      rw [List.length_drop]; omega
    have hall : ∀ (i : ℕ) (hi : i < (notes.drop idx).length), i ≤ j - idx →
        noteTime speed startTime ((notes.drop idx).get ⟨i, hi⟩) < c + scheduleWindow := by
      intro i hi hij
      rw [hget i hi]
      rcases Nat.lt_or_ge (idx + i) j with hlt | hge
      · have hts := hmono ⟨idx + i, by omega⟩ ⟨j, hj⟩ hlt
        have := mul_le_mul_of_nonneg_right hts hsp
        have hle : noteTime speed startTime (notes.get ⟨idx + i, by omega⟩) ≤
            noteTime speed startTime (notes.get ⟨j, hj⟩) := by
          simp only [noteTime]
          linarith
        exact lt_of_le_of_lt hle hp
      · have hie : idx + i = j := by omega
        have : (⟨idx + i, by omega⟩ : Fin notes.length) = ⟨j, hj⟩ := by
          exact Fin.ext hie
        rw [this]
        exact hp
    have := scanLoop_count_gt_of_all speed startTime c (notes.drop idx) (j - idx) hj' hall
    simp only [schedulePoll]
    omega
  · intro hc
    have hj' : j - idx < (notes.drop idx).length := by
      rw [List.length_drop]; omega
    have hnot : ¬ noteTime speed startTime ((notes.drop idx).get ⟨j - idx, hj'⟩) <
        c + scheduleWindow := by
      rw [hget (j - idx) hj']
      have hie : idx + (j - idx) = j := by omega
      have hfin : (⟨idx + (j - idx), by omega⟩ : Fin notes.length) = ⟨j, hj⟩ := Fin.ext hie
      rw [hfin]
      exact not_lt.mpr hc
    have := scanLoop_count_le_of_not speed startTime c (notes.drop idx) (j - idx) hj' hnot
    simp only [schedulePoll]
    omega
  · intro h
    rw [scheduleWindow, Rat.mkRat_eq_div] at h ⊢
    rw [Rat.mkRat_eq_div] at h
    push_cast at h ⊢
    linarith
/-- Witness for C3 amended, on a one-note song with target time T = 0:
a poll at clock 1 (past the strict threshold) hands the note off; a poll at
clock -2 (window not reaching T) does not; and the clock -7/5, one poll
period past the threshold T - 1.5, is within one window past T. -/
theorem spec_c3_amended_witness :
    0 < (schedulePoll [Note.mk 0 60] 1 0 0 1).1 ∧
    (schedulePoll [Note.mk 0 60] 1 0 0 (-2)).1 ≤ 0 ∧
    (-7/5 : ℚ) < noteTime 1 0 (Note.mk 0 60) + scheduleWindow := by
  have h1 := spec_c3_amended [Note.mk 0 60] 1 0 0 0 1
    (by decide) (by decide) (by norm_num) (le_refl 0)
  have h2 := spec_c3_amended [Note.mk 0 60] 1 0 0 0 (-2)
    (by decide) (by decide) (by norm_num) (le_refl 0)
  have h3 := spec_c3_amended [Note.mk 0 60] 1 0 0 0 (-7/5)
    (by decide) (by decide) (by norm_num) (le_refl 0)
  have hp : noteTime 1 0 (Note.mk 0 60) < 1 + scheduleWindow := by
    norm_num [noteTime, scheduleWindow, Rat.mkRat_eq_div]
  have hq : (-2 : ℚ) + scheduleWindow ≤ noteTime 1 0 (Note.mk 0 60) := by
    norm_num [noteTime, scheduleWindow, Rat.mkRat_eq_div]
  have hr : (-7/5 : ℚ) ≤ noteTime 1 0 (Note.mk 0 60) - scheduleWindow + mkRat 1 5 := by
    norm_num [noteTime, scheduleWindow, Rat.mkRat_eq_div]
  exact ⟨h1.1 hp, h2.2.1 hq, h3.2.2 hr⟩

/-- The last entry of the Canon note table. -/
theorem canon_last : canonSong.notes.getLast? = some (Note.mk 50 60) := by decide

/-- Every Canon note offset is at most 50, the last note's offset. -/
theorem canon_t_bound : ∀ n ∈ canonSong.notes, n.t ≤ 50 := by decide

/-- Every Canon note's midi value has a kalimba key. -/
theorem canon_keys : ∀ n ∈ canonSong.notes, kalimbaHasKey n.midi := by decide

/-- Head of the hand-off list of a first poll over a song whose first note is
already inside the window and has a key. -/
theorem schedulePoll_head (n0 : Note) (rest : List Note) (speed startTime c : ℚ)
    (hp : noteTime speed startTime n0 < c + scheduleWindow) (hk : kalimbaHasKey n0.midi) :
    (schedulePoll (n0 :: rest) speed startTime 0 c).2.head? =
      some (Handoff.mk n0.midi (noteTime speed startTime n0)) := by
  simp [schedulePoll, scanLoop, hp, handoffOpt, hk]

/-- C4: starting playback of song index 0 (the Canon) when the audio clock
reads t0 records the session start time t0 + 0.1; the immediate first poll
(observed clock still t0) hands off the song's first note at exactly t0 + 0.1;
a poll whose clock has advanced past sessionStartTime t0 + 20 hands off the
last note at sessionStartTime t0 + 50 * speed, which is no earlier than
t0 + 0.1 + lastNote.t * speed; and a tick whose scan pointer has reached the
end of the note table and whose clock has passed the last note's target time
by more than the 2-second grace margin resets isPlaying and songIndex. -/
theorem spec_c4_session (t0 cd c2 : ℚ) (s : KalimbaState)
    (hcd : sessionStartTime t0 + 20 ≤ cd)
    (hs : canonSong.notes.length ≤ s.nextNoteIndex)
    (hc2 : noteTime canonSong.speed (sessionStartTime t0) (Note.mk 50 60) + 2 < c2) :
    SONGS.head? = some canonSong ∧
    (schedulePoll canonSong.notes canonSong.speed (sessionStartTime t0) 0 t0).2.head? =
      some (Handoff.mk 60 (sessionStartTime t0)) ∧
    (schedulePoll canonSong.notes canonSong.speed (sessionStartTime t0) 0 cd).2.getLast? =
      some (Handoff.mk 60 (sessionStartTime t0 + 50 * canonSong.speed)) ∧
    t0 + mkRat 1 10 + 50 * canonSong.speed ≤ sessionStartTime t0 + 50 * canonSong.speed ∧
    (schedulerTick canonSong (sessionStartTime t0) s (some c2)).1.isPlaying = false ∧
    (schedulerTick canonSong (sessionStartTime t0) s (some c2)).1.songIndex = none := by
  have hspeed : (0 : ℚ) ≤ canonSong.speed := by decide
  have hfirst : (schedulePoll canonSong.notes canonSong.speed (sessionStartTime t0) 0 t0).2.head? =
      some (Handoff.mk 60 (sessionStartTime t0)) := by
    have hp : noteTime canonSong.speed (sessionStartTime t0) (Note.mk 0 60) <
        t0 + scheduleWindow := by
      simp only [noteTime, sessionStartTime, scheduleWindow]
      rw [Rat.mkRat_eq_div, Rat.mkRat_eq_div]
      push_cast
      rw [zero_mul, add_zero]
      linarith
    have hh := schedulePoll_head (Note.mk 0 60) canonSong.notes.tail canonSong.speed
      (sessionStartTime t0) t0 hp (by decide)
    rw [show (Note.mk 0 60 :: canonSong.notes.tail) = canonSong.notes from rfl] at hh
    rw [hh]
    simp [noteTime]
  have hdrain : ∀ n ∈ canonSong.notes,
      noteTime canonSong.speed (sessionStartTime t0) n < cd + scheduleWindow := by
    intro n hn
    have ht := canon_t_bound n hn
    have hmul : n.t * canonSong.speed ≤ 50 * canonSong.speed :=
      mul_le_mul_of_nonneg_right ht hspeed
    have h50 : (50 : ℚ) * canonSong.speed = 20 := by
      show (50 : ℚ) * mkRat 2 5 = 20
      rw [Rat.mkRat_eq_div]
      norm_num
    rw [h50] at hmul
    simp only [noteTime, sessionStartTime, scheduleWindow] at hcd ⊢
    rw [Rat.mkRat_eq_div] at hcd ⊢
    rw [Rat.mkRat_eq_div]
    push_cast at hcd ⊢
    linarith
  have hlastPoll : (schedulePoll canonSong.notes canonSong.speed (sessionStartTime t0) 0 cd).2.getLast? =
      some (Handoff.mk 60 (sessionStartTime t0 + 50 * canonSong.speed)) := by
    have hall := scanLoop_all canonSong.speed (sessionStartTime t0) cd canonSong.notes hdrain
    simp only [schedulePoll, List.drop_zero, hall]
    rw [filterMap_handoff_of_keys canonSong.speed (sessionStartTime t0) canonSong.notes canon_keys]
    rw [List.getLast?_map, canon_last]
    simp [noteTime]
  have hidx : canonSong.notes.length ≤
      (schedulePoll canonSong.notes canonSong.speed (sessionStartTime t0) s.nextNoteIndex c2).1 :=
    le_trans hs (schedulePoll_mono canonSong.notes canonSong.speed (sessionStartTime t0)
      s.nextNoteIndex c2)
  have hreset : (decide (noteTime canonSong.speed (sessionStartTime t0) (Note.mk 50 60) + 2 < c2) &&
      decide (canonSong.notes.length ≤
        (schedulePoll canonSong.notes canonSong.speed (sessionStartTime t0)
          s.nextNoteIndex c2).1)) = true := by
    rw [decide_eq_true hc2, decide_eq_true hidx]
    rfl
  have htick : (schedulerTick canonSong (sessionStartTime t0) s (some c2)).1.isPlaying = false ∧
      (schedulerTick canonSong (sessionStartTime t0) s (some c2)).1.songIndex = none := by
    simp only [schedulerTick, canon_last, hreset]
    simp
  exact ⟨rfl, hfirst, hlastPoll, le_refl _, htick.1, htick.2⟩

/-- Witness for C4 at t0 = 0, drain clock 21, finishing clock 30, and a state
whose scan pointer has reached the end of the 141-note table. -/
theorem spec_c4_session_witness :
    (sessionStartTime 0 + 20 ≤ 21 ∧
      canonSong.notes.length ≤ 141 ∧
      noteTime canonSong.speed (sessionStartTime 0) (Note.mk 50 60) + 2 < 30) ∧
    (SONGS.head? = some canonSong ∧
      (schedulePoll canonSong.notes canonSong.speed (sessionStartTime 0) 0 0).2.head? =
        some (Handoff.mk 60 (sessionStartTime 0)) ∧
      (schedulePoll canonSong.notes canonSong.speed (sessionStartTime 0) 0 21).2.getLast? =
        some (Handoff.mk 60 (sessionStartTime 0 + 50 * canonSong.speed)) ∧
      (0 : ℚ) + mkRat 1 10 + 50 * canonSong.speed ≤ sessionStartTime 0 + 50 * canonSong.speed ∧
      (schedulerTick canonSong (sessionStartTime 0) (KalimbaState.mk true (some 0) 141)
        (some 30)).1.isPlaying = false ∧
      (schedulerTick canonSong (sessionStartTime 0) (KalimbaState.mk true (some 0) 141)
        (some 30)).1.songIndex = none) := by
  have h1 : sessionStartTime 0 + 20 ≤ (21 : ℚ) := by
    norm_num [sessionStartTime, Rat.mkRat_eq_div]
  have h2 : canonSong.notes.length ≤ 141 := by decide
  have h3 : noteTime canonSong.speed (sessionStartTime 0) (Note.mk 50 60) + 2 < (30 : ℚ) := by
    show (0 : ℚ) + mkRat 1 10 + 50 * mkRat 2 5 + 2 < 30
    rw [Rat.mkRat_eq_div, Rat.mkRat_eq_div]
    norm_num
  exact ⟨⟨h1, h2, h3⟩, spec_c4_session 0 21 30 (KalimbaState.mk true (some 0) 141) h1 h2 h3⟩
/-! ## Engine lemmas -/

theorem jmax_num_num (a b : ℚ) : jmax (JSNum.num a) (JSNum.num b) = JSNum.num (max a b) := rfl

theorem jmax_num_nan (a : ℚ) : jmax (JSNum.num a) JSNum.nan = JSNum.nan := rfl

theorem jmax_num_ninf (a : ℚ) : jmax (JSNum.num a) (JSNum.inf false) = JSNum.num a := rfl

theorem jmax_num_pinf (a : ℚ) : jmax (JSNum.num a) (JSNum.inf true) = JSNum.inf true := rfl

/-- The trace play makes once the guard passes and a context exists: the
dispatched preset at the Math.max-clamped time. -/
theorem play_trace (env : EngineEnv) (s : EngineState) (freq posFactor : JSNum)
    (instrument : Instrument) (whenArg : JSNum)
    (hf : freq.isFinite = true) (hp : posFactor.isFinite = true)
    (st : CtxRunState) (hctx : (AudioEngine.ensureInit env s).ctx = some st) :
    (AudioEngine.play env s freq posFactor instrument whenArg).2 =
      match instrument with
      | Instrument.piano =>
          AudioEngine.playPiano freq posFactor (jmax (JSNum.num env.now) whenArg)
      | Instrument.kalimba =>
          AudioEngine.playKalimba freq posFactor (jmax (JSNum.num env.now) whenArg) := by
  simp only [AudioEngine.play, hf, hp, Bool.and_self, if_true, hctx]

theorem playKalimba_opsOk_num (qf qv T : ℚ) (hqf : qf ≠ 0) :
    opsOk (AudioEngine.playKalimba (JSNum.num qf) (JSNum.num qv) (JSNum.num T)) = true := by
  simp [AudioEngine.playKalimba, opsOk, opOk, JSNum.isFinite, jadd, jmul, jmax, jdiv, hqf]

theorem playPiano_opsOk_num (qf qv T : ℚ) :
    opsOk (AudioEngine.playPiano (JSNum.num qf) (JSNum.num qv) (JSNum.num T)) = true := by
  simp [AudioEngine.playPiano, opsOk, opOk, JSNum.isFinite, jadd, jmul]

theorem playKalimba_opsOk_nonfinite (f p t : JSNum) (ht : t.isFinite = false) :
    opsOk (AudioEngine.playKalimba f p t) = false := by
  simp [AudioEngine.playKalimba, opsOk, opOk, ht]

theorem playPiano_opsOk_nonfinite (f p t : JSNum) (ht : t.isFinite = false) :
    opsOk (AudioEngine.playPiano f p t) = false := by
  simp [AudioEngine.playPiano, opsOk, opOk, ht]

/-- C5: a non-finite frequency or velocity/position factor makes play return
before touching anything: no state change, no graph nodes, and a trace that
trivially satisfies every call contract, so no exception. -/
theorem spec_c5_nonfinite_input_rejected (env : EngineEnv) (s : EngineState)
    (freq posFactor : JSNum) (instrument : Instrument) (whenArg : JSNum)
    (h : freq.isFinite = false ∨ posFactor.isFinite = false) :
    AudioEngine.play env s freq posFactor instrument whenArg = (s, []) ∧
    opsOk (AudioEngine.play env s freq posFactor instrument whenArg).2 = true := by
  have hguard : (freq.isFinite && posFactor.isFinite) = false := by
    rcases h with h | h <;> simp [h]
  refine ⟨?_, ?_⟩ <;> simp [AudioEngine.play, hguard, opsOk]

/-- Witness for C5: play with a NaN frequency against a live engine. -/
theorem spec_c5_nonfinite_input_rejected_witness :
    (JSNum.isFinite JSNum.nan = false ∨ JSNum.isFinite (JSNum.num 1) = false) ∧
    (AudioEngine.play ⟨true, CtxRunState.running, 0⟩ ⟨some CtxRunState.running, 1⟩
        JSNum.nan (JSNum.num 1) Instrument.kalimba (JSNum.num 0) =
      (⟨some CtxRunState.running, 1⟩, []) ∧
    opsOk (AudioEngine.play ⟨true, CtxRunState.running, 0⟩ ⟨some CtxRunState.running, 1⟩
        JSNum.nan (JSNum.num 1) Instrument.kalimba (JSNum.num 0)).2 = true) :=
  ⟨Or.inl rfl,
    spec_c5_nonfinite_input_rejected ⟨true, CtxRunState.running, 0⟩
      ⟨some CtxRunState.running, 1⟩ JSNum.nan (JSNum.num 1) Instrument.kalimba
      (JSNum.num 0) (Or.inl rfl)⟩

/-- C6 as written fails: play validates only frequency and velocity, not the
scheduled time. With a live context, finite frequency 440 and velocity 1, a
NaN `when` is not dropped: it survives Math.max as the scheduled time, nodes
are constructed (the trace is non-empty) and a graph call receives a
non-finite time, breaking the WebIDL finiteness contract, which raises an
exception at the Web Audio boundary rather than returning silently. -/
theorem spec_c6_counterexample :
    (AudioEngine.play ⟨true, CtxRunState.running, 0⟩ ⟨some CtxRunState.running, 1⟩
        (JSNum.num 440) (JSNum.num 1) Instrument.kalimba JSNum.nan).2 ≠ [] ∧
    opsOk ((AudioEngine.play ⟨true, CtxRunState.running, 0⟩ ⟨some CtxRunState.running, 1⟩
        (JSNum.num 440) (JSNum.num 1) Instrument.kalimba JSNum.nan).2) = false := by
  exact ⟨by decide, by decide⟩

/-- C6 amended: with finite frequency (nonzero, so the kalimba decay time is
finite) and finite velocity against a live context, a finite `when` and a
negative-infinite `when` (clamped by Math.max to the current time) keep every
graph call within its finiteness contract, but a NaN or positive-infinite
`when` is not dropped: nodes are constructed and some call receives a
non-finite time, so the fault surfaces as an exception instead of silence. -/
theorem spec_c6_amended (env : EngineEnv) (s : EngineState) (qf qv w : ℚ)
    (instrument : Instrument) (hqf : qf ≠ 0) (st : CtxRunState)
    (hctx : (AudioEngine.ensureInit env s).ctx = some st) :
    opsOk (AudioEngine.play env s (JSNum.num qf) (JSNum.num qv) instrument
        (JSNum.num w)).2 = true ∧
    opsOk (AudioEngine.play env s (JSNum.num qf) (JSNum.num qv) instrument
        (JSNum.inf false)).2 = true ∧
    ((AudioEngine.play env s (JSNum.num qf) (JSNum.num qv) instrument JSNum.nan).2 ≠ [] ∧
      opsOk (AudioEngine.play env s (JSNum.num qf) (JSNum.num qv) instrument
        JSNum.nan).2 = false) ∧
    ((AudioEngine.play env s (JSNum.num qf) (JSNum.num qv) instrument
        (JSNum.inf true)).2 ≠ [] ∧
      opsOk (AudioEngine.play env s (JSNum.num qf) (JSNum.num qv) instrument
        (JSNum.inf true)).2 = false) := by
  have htr := fun whenArg => play_trace env s (JSNum.num qf) (JSNum.num qv) instrument whenArg
    rfl rfl st hctx
  refine ⟨?_, ?_, ⟨?_, ?_⟩, ⟨?_, ?_⟩⟩
  · rw [htr (JSNum.num w)]
    cases instrument
    · rw [jmax_num_num]
      exact playKalimba_opsOk_num qf qv (max env.now w) hqf
    · rw [jmax_num_num]
      exact playPiano_opsOk_num qf qv (max env.now w)
  · rw [htr (JSNum.inf false)]
    cases instrument
    · rw [jmax_num_ninf]
      exact playKalimba_opsOk_num qf qv env.now hqf
    · rw [jmax_num_ninf]
      exact playPiano_opsOk_num qf qv env.now
  · rw [htr JSNum.nan]
    cases instrument <;> simp [AudioEngine.playKalimba, AudioEngine.playPiano, jmax_num_nan]
  · rw [htr JSNum.nan]
    cases instrument
    · rw [jmax_num_nan]
      exact playKalimba_opsOk_nonfinite _ _ _ rfl
    · rw [jmax_num_nan]
      exact playPiano_opsOk_nonfinite _ _ _ rfl
  · rw [htr (JSNum.inf true)]
    cases instrument <;> simp [AudioEngine.playKalimba, AudioEngine.playPiano, jmax_num_pinf]
  · rw [htr (JSNum.inf true)]
    cases instrument
    · rw [jmax_num_pinf]
      exact playKalimba_opsOk_nonfinite _ _ _ rfl
    · rw [jmax_num_pinf]
      exact playPiano_opsOk_nonfinite _ _ _ rfl

/-- Witness for C6 amended at freq 440, velocity 1, when 0, a running context. -/
theorem spec_c6_amended_witness :
    ((440 : ℚ) ≠ 0 ∧ (AudioEngine.ensureInit ⟨true, CtxRunState.running, 0⟩
        ⟨some CtxRunState.running, 1⟩).ctx = some CtxRunState.running) ∧
    opsOk (AudioEngine.play ⟨true, CtxRunState.running, 0⟩ ⟨some CtxRunState.running, 1⟩
        (JSNum.num 440) (JSNum.num 1) Instrument.kalimba (JSNum.num 0)).2 = true ∧
    opsOk (AudioEngine.play ⟨true, CtxRunState.running, 0⟩ ⟨some CtxRunState.running, 1⟩
        (JSNum.num 440) (JSNum.num 1) Instrument.kalimba (JSNum.inf false)).2 = true := by
  have h := spec_c6_amended ⟨true, CtxRunState.running, 0⟩ ⟨some CtxRunState.running, 1⟩
    440 1 0 Instrument.kalimba (by norm_num) CtxRunState.running rfl
  exact ⟨⟨by norm_num, rfl⟩, h.1, h.2.1⟩
/-- Invariant preserved by ensureInit: if no context exists nothing was ever
created, and at most one context has ever been created. -/
theorem ensureInit_invariant (env : EngineEnv) (s : EngineState)
    (h1 : s.ctx = none → s.created = 0) (h2 : s.created ≤ 1) :
    ((AudioEngine.ensureInit env s).ctx = none →
      (AudioEngine.ensureInit env s).created = 0) ∧
    (AudioEngine.ensureInit env s).created ≤ 1 := by
  rcases hs : s.ctx with _ | st
  · by_cases ha : env.audioContextAvailable
    · have hc0 := h1 hs
      cases hn : env.newCtxState <;>
        simp [AudioEngine.ensureInit, hs, ha, hn, hc0]
    · simp only [Bool.not_eq_true] at ha
      simp [AudioEngine.ensureInit, hs, ha, h1 hs]
  · cases st <;> simp [AudioEngine.ensureInit, hs, h2]

/-- C8: ensureInit is idempotent; it never replaces an existing context;
iterating it any number of times from the fresh engine creates at most one
context; and with no AudioContext constructor and no context, both the
synthesis call and the scheduler tick no-op without failing. -/
theorem spec_c8_init_idempotent_noop (env : EngineEnv) (s s0 : EngineState) (n : ℕ)
    (freq posFactor : JSNum) (instrument : Instrument) (whenArg : JSNum)
    (c : CtxRunState) (song : Song) (startTime : ℚ) (ks : KalimbaState)
    (hc : s.ctx = some c) (h0ctx : s0.ctx = none) (h0cr : s0.created = 0)
    (hna : env.audioContextAvailable = false) :
    AudioEngine.ensureInit env (AudioEngine.ensureInit env s) = AudioEngine.ensureInit env s ∧
    (AudioEngine.ensureInit env s).created = s.created ∧
    ((AudioEngine.ensureInit env)^[n] s0).created ≤ 1 ∧
    AudioEngine.play env s0 freq posFactor instrument whenArg = (s0, []) ∧
    schedulerTick song startTime ks none = (ks, []) := by
  refine ⟨?_, ?_, ?_, ?_, rfl⟩
  · rcases hs : s.ctx with _ | st
    · by_cases ha : env.audioContextAvailable
      · cases hn : env.newCtxState <;> simp [AudioEngine.ensureInit, hs, ha, hn]
      · simp only [Bool.not_eq_true] at ha
        simp [AudioEngine.ensureInit, hs, ha]
    · cases st <;> simp [AudioEngine.ensureInit, hs]
  · cases c <;> simp [AudioEngine.ensureInit, hc]
  · induction n with
    | zero => simp [h0cr]
    | succ m ih =>
      have hpres : (((AudioEngine.ensureInit env)^[m] s0).ctx = none →
          ((AudioEngine.ensureInit env)^[m] s0).created = 0) ∧
          ((AudioEngine.ensureInit env)^[m] s0).created ≤ 1 := by
        clear ih
        induction m with
        | zero => simp [h0ctx, h0cr]
        | succ p ihp =>
          rw [Function.iterate_succ_apply']
          exact ensureInit_invariant env _ ihp.1 ihp.2
      rw [Function.iterate_succ_apply']
      exact (ensureInit_invariant env _ hpres.1 hpres.2).2
  · have hinit : AudioEngine.ensureInit env s0 = s0 := by
      simp [AudioEngine.ensureInit, h0ctx, hna]
    cases hfin : freq.isFinite && posFactor.isFinite <;>
      simp [AudioEngine.play, hfin, hinit, h0ctx]

/-- Witness for C8: a running engine, a fresh engine, three iterations, and a
platform without AudioContext. -/
theorem spec_c8_init_idempotent_noop_witness :
    (AudioEngine.ensureInit ⟨false, CtxRunState.running, 0⟩
        (AudioEngine.ensureInit ⟨false, CtxRunState.running, 0⟩ ⟨some CtxRunState.running, 1⟩) =
      AudioEngine.ensureInit ⟨false, CtxRunState.running, 0⟩ ⟨some CtxRunState.running, 1⟩) ∧
    (AudioEngine.ensureInit ⟨false, CtxRunState.running, 0⟩ ⟨some CtxRunState.running, 1⟩).created = 1 ∧
    ((AudioEngine.ensureInit ⟨false, CtxRunState.running, 0⟩)^[3] ⟨none, 0⟩).created ≤ 1 ∧
    AudioEngine.play ⟨false, CtxRunState.running, 0⟩ ⟨none, 0⟩ (JSNum.num 440) (JSNum.num 1)
      Instrument.kalimba (JSNum.num 0) = (⟨none, 0⟩, []) ∧
    schedulerTick howlSong 0 (KalimbaState.mk true (some 1) 0) none =
      (KalimbaState.mk true (some 1) 0, []) := by
  exact spec_c8_init_idempotent_noop ⟨false, CtxRunState.running, 0⟩
    ⟨some CtxRunState.running, 1⟩ ⟨none, 0⟩ 3 (JSNum.num 440) (JSNum.num 1)
    Instrument.kalimba (JSNum.num 0) CtxRunState.running howlSong 0
    (KalimbaState.mk true (some 1) 0) rfl rfl rfl rfl

theorem startTimes_playKalimba (f p t : JSNum) :
    startTimes (AudioEngine.playKalimba f p t) = [t, t, t] := rfl

theorem startTimes_playPiano (f p t : JSNum) :
    startTimes (AudioEngine.playPiano f p t) = [t, t] := rfl

/-- C9: for any finite requested start time w, including 0 and times already
in the past, play with a live context schedules every oscillator start at
max(currentTime, w), and at least one start happens: the note is clamped to
the current clock and played immediately rather than dropped. -/
theorem spec_c9_when_clamped_to_max (env : EngineEnv) (s : EngineState)
    (freq posFactor : JSNum) (instrument : Instrument) (w : ℚ) (τ : JSNum)
    (hf : freq.isFinite = true) (hp : posFactor.isFinite = true)
    (st : CtxRunState) (hctx : (AudioEngine.ensureInit env s).ctx = some st)
    (hτ : τ ∈ startTimes (AudioEngine.play env s freq posFactor instrument (JSNum.num w)).2) :
    τ = JSNum.num (max env.now w) ∧
    startTimes (AudioEngine.play env s freq posFactor instrument (JSNum.num w)).2 ≠ [] := by
  rw [play_trace env s freq posFactor instrument (JSNum.num w) hf hp st hctx] at hτ ⊢
  cases instrument
  · rw [startTimes_playKalimba, jmax_num_num] at hτ ⊢
    have hτ' : τ = JSNum.num (max env.now w) := by simpa using hτ
    exact ⟨hτ', by simp⟩
  · rw [startTimes_playPiano, jmax_num_num] at hτ ⊢
    have hτ' : τ = JSNum.num (max env.now w) := by simpa using hτ
    exact ⟨hτ', by simp⟩

/-- Witness for C9: a request 5 in the past of clock 0 starts at clock 0. -/
theorem spec_c9_when_clamped_to_max_witness :
    JSNum.num 0 ∈ startTimes (AudioEngine.play ⟨true, CtxRunState.running, 0⟩
        ⟨some CtxRunState.running, 1⟩ (JSNum.num 440) (JSNum.num 1) Instrument.kalimba
        (JSNum.num (-5))).2 ∧
    JSNum.num 0 = JSNum.num (max (0 : ℚ) (-5)) ∧
    startTimes (AudioEngine.play ⟨true, CtxRunState.running, 0⟩
        ⟨some CtxRunState.running, 1⟩ (JSNum.num 440) (JSNum.num 1) Instrument.kalimba
        (JSNum.num (-5))).2 ≠ [] := by
  have hmem : JSNum.num 0 ∈ startTimes (AudioEngine.play ⟨true, CtxRunState.running, 0⟩
      ⟨some CtxRunState.running, 1⟩ (JSNum.num 440) (JSNum.num 1) Instrument.kalimba
      (JSNum.num (-5))).2 := by decide
  have h := spec_c9_when_clamped_to_max ⟨true, CtxRunState.running, 0⟩
    ⟨some CtxRunState.running, 1⟩ (JSNum.num 440) (JSNum.num 1) Instrument.kalimba (-5)
    (JSNum.num 0) rfl rfl CtxRunState.running rfl hmem
  exact ⟨hmem, h.1, h.2⟩
/-- After a stop, the gain reference is always null. -/
theorem stop_gain_none (s : ViolinString) (now : ℚ) :
    ((ViolinString.stop s now).1).gain = none := by
  rcases hg : s.gain with _ | u <;> simp [ViolinString.stop, hg]

/-- After a play, the gain reference is always set: the legato branch keeps
the existing gain node, the new-bow branch creates one. -/
theorem play_gain_isSome (s : ViolinString) (velocity fingerPos now : ℚ) :
    ((ViolinString.play s velocity fingerPos now).1).gain.isSome = true := by
  by_cases h : (s.osc.isSome && s.gain.isSome && s.filter.isSome) = true
  · simp only [Bool.and_eq_true] at h
    obtain ⟨⟨ho, hg⟩, hfil⟩ := h
    simp [ViolinString.play, ho, hg, hfil]
  · simp only [Bool.not_eq_true] at h
    simp [ViolinString.play, h]

/-- C7: stopping a violin string voice twice in a row is idempotent. The
first stop nulls the gain reference (whether or not one existed); the second
stop therefore takes the null branch: it performs no gain ramp, schedules no
teardown, emits no graph action at all, and leaves the state unchanged. -/
theorem spec_c7_stop_idempotent (s : ViolinString) (now now2 : ℚ) :
    ViolinString.stop ((ViolinString.stop s now).1) now2 =
      ((ViolinString.stop s now).1, []) := by
  rcases hg : s.gain with _ | u <;> simp [ViolinString.stop, hg]

/-- C10: bow stops every string other than the requested one before playing
it, so after any bow call at most one of the four voices holds a live gain
node (the instrument is monophonic), and every string other than the bowed
one has a null gain. -/
theorem spec_c10_monophonic (available : Bool) (a : ViolinAudio) (name k : StringName)
    (velocity fingerPos now : ℚ) (hk : k ≠ name) :
    ViolinAudio.activeCount (ViolinAudio.bow available a name velocity fingerPos now).1 ≤ 1 ∧
    ViolinAudio.stringGain (ViolinAudio.bow available a name velocity fingerPos now).1 k =
      none := by
  rcases hctx : (ViolinAudio.init available a).ctx with _ | strings
  · constructor
    · simp [ViolinAudio.bow, hctx, ViolinAudio.activeCount]
    · simp [ViolinAudio.bow, hctx, ViolinAudio.stringGain]
  · have hplay := play_gain_isSome (strings name) velocity fingerPos now
    have hstop := fun k' => stop_gain_none (strings k') now
    constructor
    · simp only [ViolinAudio.bow, hctx, ViolinAudio.activeCount, stringOrder,
        List.countP_cons, List.countP_nil]
      cases name <;>
        simp [hplay, hstop]
    · simp only [ViolinAudio.bow, hctx, ViolinAudio.stringGain]
      rw [if_neg hk]
      exact hstop k

/-- Witness for C10: bowing the A string of a fresh instrument leaves at most
one active voice and a silent G string. -/
theorem spec_c10_monophonic_witness :
    ViolinAudio.activeCount (ViolinAudio.bow true ⟨none⟩ StringName.A 1 0 0).1 ≤ 1 ∧
    ViolinAudio.stringGain (ViolinAudio.bow true ⟨none⟩ StringName.A 1 0 0).1 StringName.G =
      none :=
  spec_c10_monophonic true ⟨none⟩ StringName.A StringName.G 1 0 0 (by decide)
